import Mathlib

/-!
Verification development for the Tella pending-transfer state machine
(free-text money-movement intents confirmed into ledger settlements).

The embedding below translates, file by file, the executable content of:
  * `src/utils.ts`   — phone normalization and keyed identity hashing;
  * `src/db.ts`      — the Postgres-backed user store (`getUser`,
    `insertUser`, `updateUser`), the variant exporting `initDbSchema`
    that `index.ts` imports;
  * `src/intent_gateway.ts` — `initUserIfNeeded` and `executeP2pTransfer`;
  * `src/index.ts`   — the SMS intent handlers `handleDirectIntent`,
    `handleConfirmationIntent`, `handleCancelIntent`.

Modelling conventions, stated once here:
  * JS exceptions become `Except String` error values or explicit error
    branches; the `/sms` route catch-all that replies with a generic
    error message is the `SmsReply.handlerError` constructor.
  * `Date.now()` is an explicit `now : Nat` (milliseconds) parameter,
    sampled where the code samples it.
  * Amounts (JS numbers holding decimal dollar values) are modelled as
    `Rat`; no claim in scope depends on binary floating-point rounding.
  * The HMAC-SHA256 digest of `hashPhone` is keyed by a process secret
    and is not re-implemented; it is an uninterpreted parameter
    `hmac : String → String` applied to the normalized phone, exactly as
    the source applies the digest to the normalized phone.
  * Identity hashes are carried as their hex `String` form everywhere;
    `Buffer.from(hash, 'hex')` / byte views are identified with the hex
    string, which is faithful because the conversion is injective on the
    64-hex digests the code produces.  The 64-lowercase-hex well-formedness
    re-validation done by `validatePhoneHash` in `db.ts` always succeeds on
    those digests and is not repeated at each store operation.
  * `pending_actions` is a nullable TEXT column holding a JSON blob; the
    handlers immediately `JSON.parse`/`JSON.stringify` it, and both `''`
    and SQL `NULL` are falsy to every reader, so it is modelled directly
    as `Option Pending` (`none` for NULL/empty).
  * On-ledger account addresses (`deriveUserPdaAndAta`) are pure,
    deterministic functions of the identity hash (sha256-based program
    address derivation); instructions are therefore recorded by the
    identity hashes and amounts they are built from, which determine the
    derived accounts.
  * Outcomes of external ledger calls are explicit `Bool` parameters
    (`true` = the awaited call resolved, `false` = it rejected).
-/

namespace Tella

/-! ## Phone normalization and identity hashing (`src/utils.ts`) -/

/-- Model of the JS `String.prototype.trim()`: drop leading and trailing
whitespace characters.  (JS trims a slightly larger set of Unicode
whitespace code points; nothing in scope distinguishes them.) -/
def trimWs (s : String) : String :=
  String.mk
    (((s.data.dropWhile Char.isWhitespace).reverse.dropWhile
        Char.isWhitespace).reverse)

/-- The digit characters of a string, in order: models
`phone.replace(/\D/g, '')` from `normalizePhoneToE164`. -/
def stripNonDigits (phone : String) : List Char :=
  phone.data.filter Char.isDigit

/-- Model of `normalizePhoneToE164` (`src/utils.ts`).  Mirrors the source
checks in order: empty/whitespace input, no digits, fewer than 10 digits,
exactly 10 digits (prepend the US country code `1`), 11 digits not
starting with `1`, any other count; otherwise returns `+` followed by the
digits.  `digits.startsWith('1')` on a string is its first character
being `'1'`. -/
def normalizePhoneToE164 (phone : String) : Except String String :=
  if trimWs phone = "" then
    .error "Phone number is required"
  else
    let digits := stripNonDigits phone
    if digits.length = 0 then
      .error "Phone number must contain digits"
    else if digits.length < 10 then
      .error "Phone number must contain at least 10 digits"
    else if digits.length = 10 then
      .ok (String.mk ('+' :: '1' :: digits))
    else if digits.length = 11 ∧ digits.head? ≠ some '1' then
      .error "Invalid country code. Only US numbers (+1) are supported"
    else if digits.length ≠ 11 then
      .error "Phone number must contain 10 or 11 digits"
    else
      .ok (String.mk ('+' :: digits))

/-- Model of `hashPhone` (`src/utils.ts`): normalize, then apply the
keyed HMAC-SHA256 hex digest, here the uninterpreted `hmac`. -/
def hashPhone (hmac : String → String) (phone : String) : Except String String :=
  (normalizePhoneToE164 phone).map hmac

/-! ## Data model and user store (`src/db.ts`, Postgres variant) -/

/-- The pending transfer blob stored in `pending_actions` by
`handleDirectIntent` (`src/index.ts`): `JSON.stringify({actionId, amount,
recipientHash, memo, expires, senderPhone, recipientPhone})`. -/
structure Pending where
  actionId : String
  amount : Rat
  recipientHash : String
  memo : String
  expires : Nat
  senderPhone : String
  recipientPhone : String
deriving DecidableEq

/-- A row of the `users` table, restricted to the columns the intent
handlers read and write (`wallet_init`, `pending_actions`,
`is_bank_linked`).  `wallet_init` lives in a `BOOLEAN` column: the 0/1
value `validateWalletInit` writes is coerced by Postgres to a boolean,
and `getUser` returns it to JS as a boolean (the repository's own
`db.test.ts` asserts `user.wallet_init` to be `true`/`false` after a
round trip), so the field is that boolean. -/
structure UserRow where
  wallet_init : Bool
  pending_actions : Option Pending
  is_bank_linked : Bool
deriving DecidableEq

/-- The JS strict comparison `=== 1` applied to the `wallet_init` value
read from the store.  Because the pg `BOOLEAN` column yields a JS
boolean and a boolean is never strictly equal to the number `1`
(`true === 1` is `false` in JS), this comparison is `false` for both
boolean values — which is why the `=== 1` / `!== 1` guards in
`index.ts` and `intent_gateway.ts` can never see an initialized user. -/
def strictEqOne (_w : Bool) : Bool := false

/-- The `users` table: association list keyed by `phone_hash`. -/
abbrev Db := List (String × UserRow)

/-- Model of `getUser`: the row for `phone_hash`, or `null`. -/
def getUser : Db → String → Option UserRow
  | [], _ => none
  | (k, v) :: rest, h => if k = h then some v else getUser rest h

/-- Upsert of a row under a primary key (the effect of
`INSERT ... ON CONFLICT (phone_hash) DO UPDATE`). -/
def setRow : Db → String → UserRow → Db
  | [], h, v => [(h, v)]
  | (k, w) :: rest, h, v =>
      if k = h then (h, v) :: rest else (k, w) :: setRow rest h v

/-- Model of the Postgres `insertUser` (`src/db.ts`).  Beyond the
type-level validators, it unconditionally runs `validatePhone`,
`validateHashedPin`, `validateStripeCustomerId` and
`validateStripePaymentMethodId`, each of which throws on an
empty/whitespace string — including on the `''` defaults used when the
SMS handlers call `insertUser` with only four arguments.  The 0/1 that
`validateWalletInit` produces is coerced by the `BOOLEAN` column back to
the boolean `walletInit`. -/
def insertUser (db : Db) (phoneHash : String) (walletInit : Bool)
    (pending : Option Pending) (isBankLinked : Bool)
    (phone hashedPin stripeCustomerId stripePaymentMethodId : String) :
    Except String Db :=
  if trimWs phone = "" then
    .error "Invalid phone: non-empty string required"
  else if trimWs hashedPin = "" then
    .error "Invalid hashedPin: non-empty string required"
  else if trimWs stripeCustomerId = "" then
    .error "Invalid stripeCustomerId: non-empty string required"
  else if trimWs stripePaymentMethodId = "" then
    .error "Invalid stripePaymentMethodId: non-empty string required"
  else
    .ok (setRow db phoneHash ⟨walletInit, pending, isBankLinked⟩)

/-- Model of `updateUser` applied to the single field
`{ pending_actions: p }`, as the handlers use it; rejects with
`User not found` when no row matches. -/
def updateUserPending (db : Db) (phoneHash : String) (p : Option Pending) :
    Except String Db :=
  match getUser db phoneHash with
  | none => .error "User not found"
  | some row => .ok (setRow db phoneHash { row with pending_actions := p })

/-- Model of `updateUser` applied to the single field
`{ wallet_init: w }`: `validateWalletInit` writes 0/1, the `BOOLEAN`
column coerces it, and a later `getUser` reads back the boolean `w`. -/
def updateUserWalletInit (db : Db) (phoneHash : String) (w : Bool) :
    Except String Db :=
  match getUser db phoneHash with
  | none => .error "User not found"
  | some row =>
      .ok (setRow db phoneHash { row with wallet_init := w })

/-! ## Settlement adapter (`src/intent_gateway.ts`) -/

/-- The `p2PTransfer` instruction built by `executeP2pTransfer`: it
carries the two identity hashes and `new BN(amount * 1_000_000)` (the
amount in USDC base units).  The instruction's accounts (the two PDAs and
ATAs) are the deterministic derivations `deriveUserPdaAndAta` of the two
hashes and are therefore determined by these fields.  The source function
has no memo parameter at all. -/
structure P2pInstruction where
  fromUserIdHash : String
  toUserIdHash : String
  amountBaseUnits : Rat
deriving DecidableEq

/-- Model of `executeP2pTransfer` (`src/intent_gateway.ts`): builds the
single `p2PTransfer` instruction from the two hashes and the scaled
amount.  Its parameter list is `(fromHashBytes, toHashBytes, amount,
fromUserPda, fromAta, toUserPda, toAta)` — the PDA/ATA arguments are the
derivations of the hashes and are folded into the hash fields; there is
no memo parameter. -/
def executeP2pTransfer (fromHash toHash : String) (amount : Rat) :
    P2pInstruction :=
  ⟨fromHash, toHash, amount * 1000000⟩

/-- Result of one `initUserIfNeeded` call: the store afterwards, whether
an `initializeUser` provisioning instruction was sent to the ledger,
whether that instruction succeeded on the ledger, and whether the call
returned without throwing. -/
structure InitResult where
  db : Db
  issued : Bool
  succeeded : Bool
  ok : Bool
deriving DecidableEq

/-- Model of `initUserIfNeeded` (`src/intent_gateway.ts`): read the user
row; if absent or `wallet_init !== 1` — the negation of `strictEqOne`,
which holds for every stored boolean — send the `initializeUser`
instruction (its ledger outcome is the parameter `ledgerOk`); on success
set `wallet_init` via `updateUser` (which throws `User not found` when
the row is absent); a failed ledger call rejects without touching the
store. -/
def initUserIfNeeded (db : Db) (userHash : String) (ledgerOk : Bool) :
    InitResult :=
  match getUser db userHash with
  | some u =>
      if !(strictEqOne u.wallet_init) then
        if ledgerOk then
          match updateUserWalletInit db userHash true with
          | .ok db1 => ⟨db1, true, true, true⟩
          | .error _ => ⟨db, true, true, false⟩
        else ⟨db, true, false, false⟩
      else ⟨db, false, false, true⟩
  | none =>
      if ledgerOk then ⟨db, true, true, false⟩
      else ⟨db, true, false, false⟩

/-! ## SMS intent handlers (`src/index.ts`) -/

/-- The replies the handlers produce via `sendSmsRes`, plus
`handlerError` for exceptions that escape to the `/sms` route's
catch-all (which replies with a generic error message). -/
inductive SmsReply where
  | recipientMissing
  | invalidRecipient
  | selfSend
  | invalidAmount
  | confirmPrompt (amount : Rat) (recipient : String) (memo : String)
  | noPending
  | transferExpired
  | sent
  | cancelled
  | noPendingCancel
  | handlerError (e : String)
deriving DecidableEq

/-- Classification of replies under the spec's error taxonomy (§7):
`InvalidTransfer` covers bad amount and self-transfer.  This definition
follows the spec's words, for comparison with the code's replies. -/
def SmsReply.isInvalidTransfer : SmsReply → Bool
  | .selfSend => true
  | .invalidAmount => true
  | _ => false

/-- External ledger calls made by a handler, in order. -/
inductive Effect where
  | initCall (userHash : String) (succeeded : Bool)
  | backgroundInit (userHash : String)
  | settle (ix : P2pInstruction) (succeeded : Bool)
deriving DecidableEq

/-- The settlement instructions submitted in a trace (successful or
not): each `Effect.settle` is one invocation of `executeP2pTransfer`. -/
def settleCalls (trace : List Effect) : List P2pInstruction :=
  trace.filterMap fun e =>
    match e with
    | .settle ix _ => some ix
    | _ => none

/-- The classifier output consumed by `handleDirectIntent`
(`parseIntent`'s `{amount, recipient, memo}`; `trigger` selects the
handler). -/
structure ParsedIntent where
  amount : Rat
  recipient : String
  memo : String
deriving DecidableEq

/-- Confirmation window: `EXPIRES_MS = 5 * 60 * 1000`. -/
def EXPIRES_MS : Nat := 5 * 60 * 1000

/-- Model of `handleDirectIntent` (`src/index.ts`): validate the
recipient (missing, unhashable, self-send), validate the amount, then
store the new pending transfer via `insertUser(fromHash, senderInit,
JSON, is_bank_linked)` — only four arguments, so `phone`, `hashedPin`
and the Stripe ids take their `''` defaults — then create the recipient
row if absent, reply with the confirmation prompt and, unless
`senderInit` holds (the guard `sender?.wallet_init === 1`, i.e.
`strictEqOne` on the boolean column value, which never holds),
fire-and-forget a background provisioning task (recorded as
`Effect.backgroundInit`; it runs detached from this request).
`actionId` is the fresh `crypto.randomUUID()`. -/
def handleDirectIntent (hmac : String → String) (now : Nat)
    (actionId : String) (db : Db) (fromHash fromPhone : String)
    (parsed : ParsedIntent) : Db × SmsReply × List Effect :=
  if trimWs parsed.recipient = "" then (db, .recipientMissing, [])
  else
    match hashPhone hmac parsed.recipient with
    | .error _ => (db, .invalidRecipient, [])
    | .ok recipientHash =>
      if fromHash = recipientHash then (db, .selfSend, [])
      else if parsed.amount ≤ 0 then (db, .invalidAmount, [])
      else
        let sender := getUser db fromHash
        let senderInit :=
          (sender.map (fun u => strictEqOne u.wallet_init)).getD false
        let pending : Pending :=
          ⟨actionId, parsed.amount, recipientHash, parsed.memo,
           now + EXPIRES_MS, fromPhone, parsed.recipient⟩
        match insertUser db fromHash senderInit (some pending)
            ((sender.map (·.is_bank_linked)).getD false) "" "" "" "" with
        | .error e => (db, .handlerError e, [])
        | .ok db1 =>
          let afterRecipient :=
            if (getUser db1 recipientHash).isNone then
              insertUser db1 recipientHash false none false "" "" "" ""
            else .ok db1
          match afterRecipient with
          | .error e => (db1, .handlerError e, [])
          | .ok db2 =>
            (db2,
             .confirmPrompt parsed.amount parsed.recipient parsed.memo,
             if senderInit then [] else [.backgroundInit fromHash])

/-- The sender/recipient provisioning step of `handleConfirmationIntent`:
re-read the row, and when it is absent or `wallet_init !== 1` (the
negation of `strictEqOne`, which always holds on the boolean column
value) call `initUserIfNeeded` (which re-checks).  Returns the store,
the emitted ledger calls, and the error when the call threw. -/
def initStep (db : Db) (userHash : String) (ledgerOk : Bool) :
    Db × List Effect × Option String :=
  let needed : Bool :=
    match getUser db userHash with
    | some u => !(strictEqOne u.wallet_init)
    | none => true
  if needed then
    let r := initUserIfNeeded db userHash ledgerOk
    (r.db,
     (if r.issued then [Effect.initCall userHash r.succeeded] else []),
     if r.ok then none else some "init failed")
  else (db, [], none)

/-- Model of `handleConfirmationIntent` (`src/index.ts`): load the user
and its pending transfer (absent/empty ⇒ no-pending reply); if
`Date.now() > expires`, clear it and reply expired; otherwise provision
sender and recipient if needed, invoke `executeP2pTransfer` once
(`settleOk` is its ledger outcome), reply sent, notify the recipient via
Twilio (`notifyOk` its outcome), and finally clear the pending transfer.
A rejection at any awaited step propagates to the route's catch-all
without running the later steps.  The structured `pending` stands for
the `JSON.parse` of the stored blob, which in this embedding always
parses. -/
def handleConfirmationIntent (now : Nat) (db : Db) (fromHash : String)
    (senderLedgerOk recipLedgerOk settleOk notifyOk : Bool) :
    Db × SmsReply × List Effect :=
  match getUser db fromHash with
  | none => (db, .noPending, [])
  | some user =>
    match user.pending_actions with
    | none => (db, .noPending, [])
    | some pending =>
      if now > pending.expires then
        match updateUserPending db fromHash none with
        | .ok db1 => (db1, .transferExpired, [])
        | .error e => (db, .handlerError e, [])
      else
        match initStep db fromHash senderLedgerOk with
        | (db1, tr1, some e) => (db1, .handlerError e, tr1)
        | (db1, tr1, none) =>
          match initStep db1 pending.recipientHash recipLedgerOk with
          | (db2, tr2, some e) => (db2, .handlerError e, tr1 ++ tr2)
          | (db2, tr2, none) =>
            let ix :=
              executeP2pTransfer fromHash pending.recipientHash
                pending.amount
            if settleOk then
              if notifyOk then
                match updateUserPending db2 fromHash none with
                | .ok db3 =>
                    (db3, .sent, tr1 ++ tr2 ++ [.settle ix true])
                | .error e =>
                    (db2, .handlerError e, tr1 ++ tr2 ++ [.settle ix true])
              else
                (db2, .handlerError "notify failed",
                 tr1 ++ tr2 ++ [.settle ix true])
            else
              (db2, .handlerError "settle failed",
               tr1 ++ tr2 ++ [.settle ix false])

/-- Model of `handleCancelIntent` (`src/index.ts`): if the user has a
(truthy) `pending_actions`, clear it and reply cancelled; otherwise
reply that there is nothing to cancel.  The current time is not
consulted. -/
def handleCancelIntent (db : Db) (fromHash : String) : Db × SmsReply :=
  match getUser db fromHash with
  | some user =>
      match user.pending_actions with
      | some _ =>
          match updateUserPending db fromHash none with
          | .ok db1 => (db1, .cancelled)
          | .error e => (db, .handlerError e)
      | none => (db, .noPendingCancel)
  | none => (db, .noPendingCancel)

/-! ## Interleaving model of concurrent confirmations

Each inbound `/sms` request is an independent unit of work; the `await`
points of `handleConfirmationIntent` let two requests for the same
sender interleave.  A confirmation task is abstracted to its three
store/ledger touchpoints: load the pending transfer (with the lazy
expiry check), submit the settlement instruction, clear the pending
transfer.  Reads and writes of one user's row are atomic
(read-modify-write per key), which this step relation respects. -/

/-- Clearing a pending transfer (`updateUser(fromHash,
{pending_actions: null})`), as a total function on the store: the row is
present whenever the tasks reach this step. -/
def clearPending (db : Db) (userHash : String) : Db :=
  match getUser db userHash with
  | some row => setRow db userHash { row with pending_actions := none }
  | none => db

/-- Program counter and loaded pending transfer of one in-flight
confirmation request. -/
structure ConfirmTask where
  pc : Nat
  loaded : Option Pending
deriving DecidableEq

/-- One atomic step of a confirmation task for `sender`:
pc 0 loads the row (finishing immediately on no/expired pending, the
latter after lazily clearing it); pc 1 submits the settlement
instruction built from the loaded pending transfer; pc 2 clears the
pending transfer; pc 3 is done. -/
def stepTask (now : Nat) (sender : String) (db : Db) (t : ConfirmTask)
    (settles : List P2pInstruction) :
    Db × ConfirmTask × List P2pInstruction :=
  match t.pc with
  | 0 =>
    (match getUser db sender with
     | none => (db, ⟨3, none⟩, settles)
     | some u =>
       match u.pending_actions with
       | none => (db, ⟨3, none⟩, settles)
       | some p =>
         if now > p.expires then (clearPending db sender, ⟨3, none⟩, settles)
         else (db, ⟨1, some p⟩, settles))
  | 1 =>
    (match t.loaded with
     | some p =>
         (db, ⟨2, some p⟩,
          settles ++ [executeP2pTransfer sender p.recipientHash p.amount])
     | none => (db, ⟨3, none⟩, settles))
  | 2 => (clearPending db sender, ⟨3, none⟩, settles)
  | _ => (db, t, settles)

/-- Shared state of two concurrent confirmation requests for the same
sender, plus the settlement instructions submitted so far. -/
structure ConcState where
  db : Db
  taskA : ConfirmTask
  taskB : ConfirmTask
  settles : List P2pInstruction
deriving DecidableEq

/-- Run a schedule: `true` steps task A, `false` steps task B. -/
def runSchedule (now : Nat) (sender : String) :
    List Bool → ConcState → ConcState
  | [], st => st
  | b :: rest, st =>
    if b then
      let r := stepTask now sender st.db st.taskA st.settles
      runSchedule now sender rest ⟨r.1, r.2.1, st.taskB, r.2.2⟩
    else
      let r := stepTask now sender st.db st.taskB st.settles
      runSchedule now sender rest ⟨r.1, st.taskA, r.2.1, r.2.2⟩

/-! ## Store lemmas -/

theorem getUser_setRow_self (db : Db) (h : String) (v : UserRow) :
    getUser (setRow db h v) h = some v := by
  induction db with
  | nil => simp [getUser, setRow]
  | cons kv rest ih =>
    obtain ⟨k, w⟩ := kv
    by_cases hk : k = h
    · simp [getUser, setRow, hk]
    · simp [getUser, setRow, hk, ih]

theorem getUser_setRow_other (db : Db) (h s : String) (v : UserRow)
    (hne : h ≠ s) : getUser (setRow db h v) s = getUser db s := by
  induction db with
  | nil => simp [getUser, setRow, hne]
  | cons kv rest ih =>
    obtain ⟨k, w⟩ := kv
    by_cases hk : k = h
    · subst hk
      simp [getUser, setRow, hne]
    · simp [getUser, setRow, hk, ih]

/-- The pending transfer a reader sees for `s`, `none` when the row is
absent. -/
def pendingOf (db : Db) (s : String) : Option (Option Pending) :=
  (getUser db s).map (·.pending_actions)

theorem pendingOf_initUserIfNeeded (db : Db) (h s : String)
    (ledgerOk : Bool) :
    pendingOf (initUserIfNeeded db h ledgerOk).db s = pendingOf db s := by
  unfold initUserIfNeeded
  cases hg : getUser db h with
  | none => cases ledgerOk <;> simp
  | some u =>
    cases ledgerOk with
    | false => simp [strictEqOne]
    | true =>
      simp only [strictEqOne, Bool.not_false, if_true,
        updateUserWalletInit, hg]
      by_cases hs : h = s
      · subst hs
        simp [pendingOf, getUser_setRow_self, hg]
      · simp [pendingOf, getUser_setRow_other _ _ _ _ hs]

theorem pendingOf_initStep (db : Db) (h s : String) (ledgerOk : Bool) :
    pendingOf (initStep db h ledgerOk).1 s = pendingOf db s := by
  unfold initStep
  by_cases hn : (match getUser db h with
    | some u => !(strictEqOne u.wallet_init)
    | none => true) = true
  · simp only [hn, if_pos]
    exact pendingOf_initUserIfNeeded db h s ledgerOk
  · simp [hn]

/-! ## Further helper lemmas -/

theorem stripNonDigits_all_digits (s : String) :
    (stripNonDigits s).all Char.isDigit = true := by
  rw [List.all_eq_true]
  intro c hc
  exact List.of_mem_filter hc

theorem normalize_ok_trim_ne (s r : String)
    (h : normalizePhoneToE164 s = .ok r) : trimWs s ≠ "" := by
  intro he
  simp [normalizePhoneToE164, he] at h

/-- Case analysis of a successful normalization: either the input had 10
digits and `1` was prepended, or it had 11 digits starting with `1`. -/
theorem normalize_ok_cases (s r : String)
    (h : normalizePhoneToE164 s = .ok r) :
    ((stripNonDigits s).length = 10 ∧
      r = String.mk ('+' :: '1' :: stripNonDigits s)) ∨
    ((stripNonDigits s).length = 11 ∧
      (stripNonDigits s).head? = some '1' ∧
      r = String.mk ('+' :: stripNonDigits s)) := by
  simp only [normalizePhoneToE164] at h
  split at h
  · exact absurd h (by simp)
  · split at h
    · exact absurd h (by simp)
    · split at h
      · exact absurd h (by simp)
      · split at h
        · rename_i h10
          exact Or.inl ⟨h10, (Except.ok.injEq _ _).mp h |>.symm⟩
        · split at h
          · exact absurd h (by simp)
          · split at h
            · exact absurd h (by simp)
            · rename_i hlt h10 h11 hne
              push_neg at h11
              have hlen : (stripNonDigits s).length = 11 := by omega
              exact Or.inr ⟨hlen, h11 hlen,
                (Except.ok.injEq _ _).mp h |>.symm⟩

theorem hashPhone_ok (hmac : String → String) (s h : String)
    (hh : hashPhone hmac s = .ok h) :
    ∃ r, normalizePhoneToE164 s = .ok r ∧ h = hmac r := by
  unfold hashPhone at hh
  cases hn : normalizePhoneToE164 s with
  | error e => rw [hn] at hh; simp [Except.map] at hh
  | ok r =>
    rw [hn] at hh
    simp [Except.map] at hh
    exact ⟨r, rfl, hh.symm⟩

/-- The expired-pending branch of `handleConfirmationIntent`: lazily
clear and reply expired, touching neither ledger nor settlement. -/
theorem confirm_expired_eq (now : Nat) (db : Db) (s : String)
    (u : UserRow) (p : Pending) (iok1 iok2 sok nok : Bool)
    (hu : getUser db s = some u) (hp : u.pending_actions = some p)
    (hexp : p.expires < now) :
    handleConfirmationIntent now db s iok1 iok2 sok nok =
      (setRow db s { u with pending_actions := none },
       .transferExpired, []) := by
  simp only [handleConfirmationIntent, hu, hp, updateUserPending,
    gt_iff_lt, hexp, if_true]

/-! ## Claims -/

/-- Claim C10: for every input string, phone normalization either fails
or returns a string that is `+` followed by exactly 11 digits beginning
with `1`; an input with exactly 10 digits has `1` prepended; an
11-digit input not starting with `1` is rejected; every other digit
count is rejected; and `hashPhone` only ever hashes such normalized
outputs, so only US (+1) numbers can be hashed, stored or addressed. -/
theorem c10_normalize_only_us_e164 (hmac : String → String) (s : String) :
    (∀ r, normalizePhoneToE164 s = .ok r →
      r.data.length = 12 ∧ r.data.head? = some '+' ∧
      r.data.tail.all Char.isDigit = true ∧
      r.data.tail.head? = some '1') ∧
    ((stripNonDigits s).length = 10 →
      ∀ r, normalizePhoneToE164 s = .ok r →
        r = String.mk ('+' :: '1' :: stripNonDigits s)) ∧
    ((stripNonDigits s).length = 11 →
      (stripNonDigits s).head? ≠ some '1' →
      ∀ r, normalizePhoneToE164 s ≠ .ok r) ∧
    ((stripNonDigits s).length < 10 ∨ 11 < (stripNonDigits s).length →
      ∀ r, normalizePhoneToE164 s ≠ .ok r) ∧
    (∀ h, hashPhone hmac s = .ok h →
      ∃ r, normalizePhoneToE164 s = .ok r ∧ h = hmac r) := by
  refine ⟨?_, ?_, ?_, ?_, fun h hh => hashPhone_ok hmac s h hh⟩
  · intro r hr
    rcases normalize_ok_cases s r hr with ⟨h10, hr'⟩ | ⟨h11, hhd, hr'⟩
    · subst hr'
      refine ⟨by simp [h10], rfl, ?_, rfl⟩
      simp only [List.tail_cons, List.all_cons, Bool.and_eq_true]
      exact ⟨by decide, stripNonDigits_all_digits s⟩
    · subst hr'
      refine ⟨by simp [h11], rfl, ?_, ?_⟩
      · exact stripNonDigits_all_digits s
      · simpa using hhd
  · intro h10 r hr
    rcases normalize_ok_cases s r hr with ⟨_, hr'⟩ | ⟨h11, _, _⟩
    · exact hr'
    · omega
  · intro h11 hhd r hr
    rcases normalize_ok_cases s r hr with ⟨h10, _⟩ | ⟨_, hhd', _⟩
    · omega
    · exact hhd hhd'
  · intro hlen r hr
    rcases normalize_ok_cases s r hr with ⟨h10, _⟩ | ⟨h11, _, _⟩ <;> omega

/-- Witness for C10 on the 10-digit input `(415) 555-1234`, which
normalizes to `+14155551234`. -/
theorem c10_normalize_only_us_e164_witness :
    ("+14155551234".data.length = 12 ∧
     "+14155551234".data.head? = some '+' ∧
     "+14155551234".data.tail.all Char.isDigit = true ∧
     "+14155551234".data.tail.head? = some '1') ∧
    normalizePhoneToE164 "(415) 555-1234" = .ok "+14155551234" :=
  ⟨(c10_normalize_only_us_e164 id "(415) 555-1234").1 "+14155551234" rfl,
   rfl⟩

/-- Claim C9: when the parsed recipient hashes to the sender's own hash,
the direct intent is rejected as a self-send — an `InvalidTransfer`
failure in the spec's taxonomy — regardless of the amount, and the store
is unchanged. -/
theorem c9_self_send_rejected (hmac : String → String) (now : Nat)
    (actionId : String) (db : Db) (fromHash fromPhone : String)
    (parsed : ParsedIntent)
    (hself : hashPhone hmac parsed.recipient = .ok fromHash) :
    handleDirectIntent hmac now actionId db fromHash fromPhone parsed =
      (db, .selfSend, []) ∧
    SmsReply.selfSend.isInvalidTransfer = true := by
  obtain ⟨r, hn, -⟩ := hashPhone_ok hmac parsed.recipient fromHash hself
  have hne : trimWs parsed.recipient ≠ "" := normalize_ok_trim_ne _ _ hn
  refine ⟨?_, rfl⟩
  simp [handleDirectIntent, hne, hself]

/-- Witness for C9: the sender whose hash is `h` sending to a contact
hashing to `h` is rejected as a self-send with the store untouched. -/
theorem c9_self_send_rejected_witness :
    handleDirectIntent (fun _ => "h") 0 "A" [] "h" "+14085551234"
        ⟨5, "+14155551234", ""⟩ = ([], .selfSend, []) ∧
    SmsReply.selfSend.isInvalidTransfer = true :=
  c9_self_send_rejected (fun _ => "h") 0 "A" [] "h" "+14085551234"
    ⟨5, "+14155551234", ""⟩ rfl

/-- Claim C8 as stated is too strong: with a nonpositive amount and a
recipient that does not normalize, submit fails with the
invalid-recipient contact error — not an `InvalidTransfer` error — since
the recipient checks run before the amount check. -/
theorem c8_counterexample_contact_error_first :
    handleDirectIntent id 0 "A" [] "s" "+14085551234" ⟨-1, "x", ""⟩ =
      ([], .invalidRecipient, []) ∧
    SmsReply.invalidRecipient.isInvalidTransfer = false := ⟨rfl, rfl⟩

/-- Claim C8, amended: a direct intent with `amount <= 0` always fails
and leaves the store unchanged with no pending transfer created; the
failure is the `InvalidTransfer` invalid-amount error whenever the
recipient contact normalizes to a non-self hash, and a contact error
(missing or invalid recipient) or the self-send error otherwise. -/
theorem c8_nonpositive_amount_rejected (hmac : String → String)
    (now : Nat) (actionId : String) (db : Db)
    (fromHash fromPhone : String) (parsed : ParsedIntent)
    (hamt : parsed.amount ≤ 0) :
    (∃ rep,
      handleDirectIntent hmac now actionId db fromHash fromPhone parsed =
        (db, rep, []) ∧
      (rep = SmsReply.recipientMissing ∨ rep = SmsReply.invalidRecipient ∨
       rep = SmsReply.selfSend ∨ rep = SmsReply.invalidAmount)) ∧
    (∀ rh, hashPhone hmac parsed.recipient = .ok rh → rh ≠ fromHash →
      handleDirectIntent hmac now actionId db fromHash fromPhone parsed =
        (db, .invalidAmount, []) ∧
      SmsReply.invalidAmount.isInvalidTransfer = true) := by
  by_cases ht : trimWs parsed.recipient = ""
  · refine ⟨⟨.recipientMissing, by simp [handleDirectIntent, ht],
      Or.inl rfl⟩, ?_⟩
    intro rh hok _
    obtain ⟨r, hn, -⟩ := hashPhone_ok hmac parsed.recipient rh hok
    exact absurd ht (normalize_ok_trim_ne _ _ hn)
  · cases hn : hashPhone hmac parsed.recipient with
    | error e =>
      refine ⟨⟨.invalidRecipient, by simp [handleDirectIntent, ht, hn],
        Or.inr (Or.inl rfl)⟩, ?_⟩
      intro rh hok
      exact absurd hok (by simp)
    | ok rh0 =>
      by_cases hsf : fromHash = rh0
      · subst hsf
        refine ⟨⟨.selfSend, by simp [handleDirectIntent, ht, hn],
          Or.inr (Or.inr (Or.inl rfl))⟩, ?_⟩
        intro rh hok hne
        have hfr : fromHash = rh := by simpa using hok
        exact absurd hfr.symm hne
      · refine ⟨⟨.invalidAmount,
          by simp [handleDirectIntent, ht, hn, hsf, hamt],
          Or.inr (Or.inr (Or.inr rfl))⟩, ?_⟩
        intro rh hok hne
        exact ⟨by simp [handleDirectIntent, ht, hn, hsf, hamt], rfl⟩

/-- Witness for the amended C8 at amount `-1` and a valid non-self
recipient: the reply is the invalid-amount `InvalidTransfer` error and
the store is unchanged. -/
theorem c8_nonpositive_amount_rejected_witness :
    handleDirectIntent (fun _ => "r") 0 "A" [] "s" "+14085551234"
        ⟨-1, "+14155551234", ""⟩ = ([], .invalidAmount, []) ∧
    SmsReply.invalidAmount.isInvalidTransfer = true :=
  (c8_nonpositive_amount_rejected (fun _ => "r") 0 "A" [] "s"
      "+14085551234" ⟨-1, "+14155551234", ""⟩ (by norm_num)).2
    "r" rfl (by decide)

/-- Claim C5: confirming while the stored pending transfer's expiry
timestamp is strictly in the past fails with the transfer-expired error,
clears the pending transfer (a subsequent read finds it absent), and
makes no settlement call. -/
theorem c5_confirm_expired_clears (now : Nat) (db : Db) (s : String)
    (u : UserRow) (p : Pending) (iok1 iok2 sok nok : Bool)
    (hu : getUser db s = some u) (hp : u.pending_actions = some p)
    (hexp : p.expires < now) :
    (handleConfirmationIntent now db s iok1 iok2 sok nok).2.1 =
      .transferExpired ∧
    settleCalls (handleConfirmationIntent now db s iok1 iok2 sok nok).2.2 =
      [] ∧
    getUser (handleConfirmationIntent now db s iok1 iok2 sok nok).1 s =
      some { u with pending_actions := none } := by
  have heq := confirm_expired_eq now db s u p iok1 iok2 sok nok hu hp hexp
  rw [heq]
  exact ⟨rfl, rfl, getUser_setRow_self db s _⟩

/-- Witness for C5: a pending transfer that expired at time 0, confirmed
at time 1, replies expired, settles nothing, and is cleared. -/
theorem c5_confirm_expired_clears_witness :
    (handleConfirmationIntent 1
        [("s", ⟨true, some ⟨"A", 10, "r", "", 0, "sp", "rp"⟩, false⟩)]
        "s" true true true true).2.1 = .transferExpired ∧
    settleCalls (handleConfirmationIntent 1
        [("s", ⟨true, some ⟨"A", 10, "r", "", 0, "sp", "rp"⟩, false⟩)]
        "s" true true true true).2.2 = [] ∧
    getUser (handleConfirmationIntent 1
        [("s", ⟨true, some ⟨"A", 10, "r", "", 0, "sp", "rp"⟩, false⟩)]
        "s" true true true true).1 "s" = some ⟨true, none, false⟩ :=
  c5_confirm_expired_clears 1
    [("s", ⟨true, some ⟨"A", 10, "r", "", 0, "sp", "rp"⟩, false⟩)]
    "s" ⟨true, some ⟨"A", 10, "r", "", 0, "sp", "rp"⟩, false⟩
    ⟨"A", 10, "r", "", 0, "sp", "rp"⟩ true true true true rfl rfl
    (by decide)

/-- Claim C6: when the settlement call of a confirmation fails, the
sender's stored pending transfer is left exactly as it was (the clear
runs only after a successful settlement and notification), so a retried
confirmation can be attempted; the reply is not the success reply. -/
theorem c6_settle_failure_retains_pending (now : Nat) (db : Db)
    (s : String) (u : UserRow) (p : Pending) (iok1 iok2 nok : Bool)
    (hu : getUser db s = some u) (hp : u.pending_actions = some p)
    (hlive : ¬ now > p.expires) :
    pendingOf (handleConfirmationIntent now db s iok1 iok2 false nok).1 s
      = some (some p) ∧
    (handleConfirmationIntent now db s iok1 iok2 false nok).2.1 ≠
      .sent := by
  have hdb : pendingOf db s = some (some p) := by
    simp [pendingOf, hu, hp]
  rcases h1 : initStep db s iok1 with ⟨db1, tr1, e1⟩
  have hp1 : pendingOf db1 s = some (some p) := by
    have hq := pendingOf_initStep db s s iok1
    rw [h1] at hq
    exact hq.trans hdb
  rcases h2 : initStep db1 p.recipientHash iok2 with ⟨db2, tr2, e2⟩
  have hp2 : pendingOf db2 s = some (some p) := by
    have hq := pendingOf_initStep db1 p.recipientHash s iok2
    rw [h2] at hq
    exact hq.trans hp1
  cases e1 with
  | some err =>
    simp only [handleConfirmationIntent, hu, hp, hlive, if_false, h1]
    exact ⟨hp1, by simp⟩
  | none =>
    cases e2 with
    | some err =>
      simp only [handleConfirmationIntent, hu, hp, hlive, if_false, h1,
        h2]
      exact ⟨hp2, by simp⟩
    | none =>
      simp only [handleConfirmationIntent, hu, hp, hlive, if_false, h1,
        h2]
      exact ⟨hp2, by simp⟩

/-- Witness for C6: a live pending transfer whose settlement call fails
is still stored afterwards, and the reply is not the success reply. -/
theorem c6_settle_failure_retains_pending_witness :
    pendingOf (handleConfirmationIntent 0
        [("s", ⟨true, some ⟨"A", 10, "r", "m", 99, "sp", "rp"⟩, false⟩),
         ("r", ⟨true, none, false⟩)] "s" true true false true).1 "s" =
      some (some ⟨"A", 10, "r", "m", 99, "sp", "rp"⟩) ∧
    (handleConfirmationIntent 0
        [("s", ⟨true, some ⟨"A", 10, "r", "m", 99, "sp", "rp"⟩, false⟩),
         ("r", ⟨true, none, false⟩)] "s" true true false true).2.1 ≠
      .sent :=
  c6_settle_failure_retains_pending 0
    [("s", ⟨true, some ⟨"A", 10, "r", "m", 99, "sp", "rp"⟩, false⟩),
     ("r", ⟨true, none, false⟩)] "s"
    ⟨true, some ⟨"A", 10, "r", "m", 99, "sp", "rp"⟩, false⟩
    ⟨"A", 10, "r", "m", 99, "sp", "rp"⟩ true true true rfl rfl
    (by decide)

/-- Claim C7 fails on the code: `wallet_init` is read back from the pg
`BOOLEAN` column as a JS boolean (`db.test.ts` asserts the boolean
round trip), so the guard `user.wallet_init !== 1` compares a boolean
with the number `1` under strict inequality and is always true.  After
a first `initUserIfNeeded` on a never-initialized identity whose
provisioning call succeeds and sets the flag to `true`, a second call
still sees `strictEqOne true = false` and re-issues the
`initializeUser` instruction instead of being a no-op; only the
external ledger's rejection of a duplicate create limits the effect. -/
theorem c7_second_call_reissues_provisioning :
    (initUserIfNeeded [("h", ⟨false, none, false⟩)] "h" true).issued =
      true ∧
    (initUserIfNeeded [("h", ⟨false, none, false⟩)] "h"
      true).succeeded = true ∧
    getUser (initUserIfNeeded [("h", ⟨false, none, false⟩)] "h"
      true).db "h" = some ⟨true, none, false⟩ ∧
    strictEqOne true = false ∧
    (initUserIfNeeded
        (initUserIfNeeded [("h", ⟨false, none, false⟩)] "h" true).db
        "h" true).issued = true :=
  ⟨rfl, rfl, rfl, rfl, rfl⟩

/-- Claim C3 as stated is false: `handleCancelIntent` never consults the
expiry timestamp, so it observes an expired pending transfer (expired at
time 0) as live, clears it and reports a successful cancellation instead
of the no-pending reply that treating it as absent would produce. -/
theorem c3_counterexample_cancel_observes_expired :
    handleCancelIntent
        [("s", ⟨true, some ⟨"A", 5, "r", "", 0, "sp", "rp"⟩, false⟩)] "s" =
      ([("s", ⟨true, none, false⟩)], .cancelled) ∧
    SmsReply.cancelled ≠ SmsReply.noPendingCancel := ⟨rfl, by decide⟩

/-- Claim C3, amended: `handleConfirmationIntent` treats an expired
pending transfer as dead — it never settles it, replies expired and
lazily clears it — but `handleCancelIntent` does not consult expiry: on
any stored pending transfer, expired or not, it clears it and reports a
successful cancellation. -/
theorem c3_expiry_visibility_by_reader (now : Nat) (db : Db) (s : String)
    (u : UserRow) (p : Pending) (iok1 iok2 sok nok : Bool)
    (hu : getUser db s = some u) (hp : u.pending_actions = some p)
    (hexp : p.expires < now) :
    handleConfirmationIntent now db s iok1 iok2 sok nok =
      (setRow db s { u with pending_actions := none },
       .transferExpired, []) ∧
    handleCancelIntent db s =
      (setRow db s { u with pending_actions := none }, .cancelled) := by
  refine ⟨confirm_expired_eq now db s u p iok1 iok2 sok nok hu hp hexp,
    ?_⟩
  simp [handleCancelIntent, hu, hp, updateUserPending]

/-- Witness for the amended C3 on an expired pending transfer. -/
theorem c3_expiry_visibility_by_reader_witness :
    handleConfirmationIntent 1
        [("s", ⟨true, some ⟨"A", 5, "r", "", 0, "sp", "rp"⟩, false⟩)]
        "s" true true true true =
      ([("s", ⟨true, none, false⟩)], .transferExpired, []) ∧
    handleCancelIntent
        [("s", ⟨true, some ⟨"A", 5, "r", "", 0, "sp", "rp"⟩, false⟩)] "s" =
      ([("s", ⟨true, none, false⟩)], .cancelled) :=
  c3_expiry_visibility_by_reader 1
    [("s", ⟨true, some ⟨"A", 5, "r", "", 0, "sp", "rp"⟩, false⟩)] "s"
    ⟨true, some ⟨"A", 5, "r", "", 0, "sp", "rp"⟩, false⟩
    ⟨"A", 5, "r", "", 0, "sp", "rp"⟩ true true true true rfl rfl
    (by decide)

/-- Claim C1 fails on the code: the four-argument `insertUser` call that
`handleDirectIntent` uses to store the pending transfer always rejects
(the `phone` parameter defaults to the empty string, which
`validatePhone` refuses), so a valid submit — amount 10, normalizable
non-self recipient — stores nothing and replies with the handler error;
the immediately following confirm then replies no-pending and issues
zero settlement calls instead of exactly one. -/
theorem c1_submit_store_always_rejects :
    (∀ (db : Db) (h : String) (wi : Bool) (p : Option Pending)
        (bl : Bool),
      insertUser db h wi p bl "" "" "" "" =
        .error "Invalid phone: non-empty string required") ∧
    handleDirectIntent id 0 "A" [] "senderhash" "+14085551234"
        ⟨10, "+14155551234", "lunch"⟩ =
      ([], .handlerError "Invalid phone: non-empty string required",
       []) ∧
    (handleConfirmationIntent 0 [] "senderhash" true true true
        true).2.1 = .noPending ∧
    settleCalls (handleConfirmationIntent 0 [] "senderhash" true true
        true true).2.2 = [] :=
  ⟨fun _ _ _ _ _ => rfl, rfl, rfl, rfl⟩

/-- Claim C2 fails on the code: two concurrent confirmations for the
same sender with one live pending transfer can both load it before
either clears it, and the interleaving in which both pass the expiry
check submits the settlement instruction twice (`handleConfirmationIntent`
clears the pending transfer only after settling, with no settling
marker). -/
theorem c2_concurrent_confirms_double_settle :
    (runSchedule 1000 "s" [true, false, true, true, false, false]
        ⟨[("s", ⟨true, some ⟨"A", 10, "r", "", 99999, "sp", "rp"⟩, false⟩),
          ("r", ⟨true, none, false⟩)],
         ⟨0, none⟩, ⟨0, none⟩, []⟩).settles =
      [executeP2pTransfer "s" "r" 10, executeP2pTransfer "s" "r" 10] :=
  rfl

/-- Claim C4 fails on the code: `executeP2pTransfer` has no memo
parameter (the memo `index.ts` passes as an eighth argument is silently
dropped), so confirming two pending transfers identical except for their
memos submits the identical single settlement instruction — one signed
transfer of the scaled amount from sender to recipient, tagged with no
memo. -/
theorem c4_settlement_drops_memo :
    settleCalls (handleConfirmationIntent 0
        [("s", ⟨true, some ⟨"A", 10, "r", "lunch", 1000, "sp", "rp"⟩,
          false⟩), ("r", ⟨true, none, false⟩)]
        "s" true true true true).2.2 =
      [executeP2pTransfer "s" "r" 10] ∧
    settleCalls (handleConfirmationIntent 0
        [("s", ⟨true, some ⟨"A", 10, "r", "dinner", 1000, "sp", "rp"⟩,
          false⟩), ("r", ⟨true, none, false⟩)]
        "s" true true true true).2.2 =
      [executeP2pTransfer "s" "r" 10] := ⟨rfl, rfl⟩

end Tella
